import Mathlib

/-!
Verification development for the tax-rag-nextjs repository.

This file shallowly embeds the RAG pipeline and HTTP handler of the
repository (src/lib/rag.ts, src/app/page.tsx rag variant,
src/app/api/chat/route.ts multi-provider variant, the UpstageEmbeddings
class) and proves the frozen claims about them.  External effects (the
fetch API, the vector store search, the LLM invocation) are embedded as
oracle function parameters; calls to them are recorded in explicit traces
so that claims about which calls happen are statable.
-/

/-! ## JSON values and serialization (models JS values / JSON.stringify) -/

/-- Model of a JavaScript JSON value as received from request bodies and
produced by providers. -/
inductive Json where
  | null : Json
  | bool (b : Bool) : Json
  | num (n : Int) : Json
  | str (s : String) : Json
  | arr (elems : List Json) : Json
  | obj (fields : List (String × Json)) : Json

/-- Escaping of a single character as done by JSON.stringify. -/
def jsonEscapeChar (c : Char) : String :=
  if c = '"' then "\\\""
  else if c = '\\' then "\\\\"
  else if c = '\n' then "\\n"
  else if c = '\r' then "\\r"
  else if c = '\t' then "\\t"
  else String.singleton c

/-- Escaping of a string body as done by JSON.stringify. -/
def jsonEscape (s : String) : String :=
  String.join (s.toList.map jsonEscapeChar)

mutual

/-- Model of JSON.stringify on a JSON value. -/
def Json.stringify : Json → String
  | .null => "null"
  | .bool b => if b then "true" else "false"
  | .num n => toString n
  | .str s => "\"" ++ jsonEscape s ++ "\""
  | .arr xs => "[" ++ String.intercalate "," (Json.stringifyList xs) ++ "]"
  | .obj fs => "\x7b" ++ String.intercalate "," (Json.stringifyFields fs) ++ "\x7d"

/-- Serialization of the elements of a JSON array. -/
def Json.stringifyList : List Json → List String
  | [] => []
  | x :: xs => Json.stringify x :: Json.stringifyList xs

/-- Serialization of the fields of a JSON object. -/
def Json.stringifyFields : List (String × Json) → List String
  | [] => []
  | (k, v) :: fs =>
    ("\"" ++ jsonEscape k ++ "\":" ++ Json.stringify v) :: Json.stringifyFields fs

end

/-- Truthiness of a JSON value under JavaScript coercion, as used by the
guard `!query` in the route handler. -/
def jsTruthy : Json → Bool
  | .null => false
  | .bool b => b
  | .num n => decide (n ≠ 0)
  | .str s => decide (s ≠ "")
  | .arr _ => true
  | .obj _ => true

/-! ## Substring containment (models String.prototype.includes) -/

/-- Boolean test that the first character list is an initial segment of the
second, written out so the development is self-contained. -/
def charsStartsWith : List Char → List Char → Bool
  | [], _ => true
  | _ :: _, [] => false
  | a :: s, b :: l => a == b && charsStartsWith s l

/-- Boolean test that `sub` occurs contiguously inside the second list. -/
def charsContains (sub : List Char) : List Char → Bool
  | [] => charsStartsWith sub []
  | a :: t => charsStartsWith sub (a :: t) || charsContains sub t

/-- Model of the JavaScript expression `s.includes(sub)`. -/
def jsIncludes (s sub : String) : Bool :=
  charsContains sub.toList s.toList

/-! ## RAG pipeline data (models src/app/page.tsx askQuestion) -/

/-- A LangChain document: page content plus string metadata.  Models the
Document objects stored in the vector store. -/
structure Doc where
  pageContent : String
  metadata : List (String × String)
  deriving DecidableEq

/-- The value returned by askQuestion: the generated answer and the source
previews. -/
structure Answer where
  answer : String
  sources : List String
  deriving DecidableEq

/-- The content field of a chat-model response: either a plain string or a
structured list of content parts (LangChain MessageContent). -/
inductive MessageContent where
  | text (s : String) : MessageContent
  | complex (parts : List Json) : MessageContent

/-- The extraction performed by askQuestion on the model response:
`typeof response.content === "string" ? response.content :
JSON.stringify(response.content)`. -/
def contentToAnswer : MessageContent → String
  | .text s => s
  | .complex parts => Json.stringify (Json.arr parts)

/-- Events recording the provider calls issued by one askQuestion run. -/
inductive TraceEvent where
  | searchCall (query : String) (k : Nat) : TraceEvent
  | generateCall (prompt : String) : TraceEvent
  deriving DecidableEq

/-- The fixed Korean instructional prompt template of askQuestion, with the
context and the question substituted in (the backtick template literal in
src/app/page.tsx lines 338-349). -/
def promptTemplate (context query : String) : String :=
  "\n[Identity]\n당신은 한국 최고의 소득세 전문가입니다.\n[Context]를 참고하여 사용자의 질문에 친절하고 정확하게 답변해주세요.\n답변은 한국어로 해주세요.\n\n[Context]\n"
    ++ context ++ "\n\n[Question]\n" ++ query ++ "\n"

/-- Embedding of askQuestion (src/app/page.tsx lines 318-367) over a
resolved vector store.  `searchO` is the similaritySearch of the resolved
store, `invokeO` the chat model invocation; both are oracles and each call
to them is recorded in the returned trace, in order. -/
def askQuestion (searchO : String → Nat → List Doc)
    (invokeO : String → MessageContent) (query : String) :
    Answer × List TraceEvent :=
  let retrievedDocs := searchO query 3
  let context := String.intercalate "\n\n" (retrievedDocs.map Doc.pageContent)
  let prompt := promptTemplate context query
  let response := invokeO prompt
  let answer := contentToAnswer response
  let sources := retrievedDocs.map (fun d => d.pageContent.take 100 ++ "...")
  (⟨answer, sources⟩,
    [TraceEvent.searchCall query 3, TraceEvent.generateCall prompt])

/-! ## The POST /api/chat handler (models src/app/api/chat/route.ts,
multi-provider revision, lines 144-212) -/

/-- The parsed JSON request body of POST /api/chat; a missing field is
`none` (destructuring then sees `undefined`). -/
structure ChatBody where
  query : Option Json
  modelType : Option Json

/-- The body of an HTTP response produced by the handler. -/
inductive RespBody where
  | err (msg : String) : RespBody
  | success (answer : String) (sources : List String) : RespBody
  deriving DecidableEq

/-- An HTTP response: status code plus JSON body. -/
structure HttpResp where
  status : Nat
  body : RespBody
  deriving DecidableEq

/-- A thrown JavaScript value: either an Error instance carrying a message,
or any other value. -/
inductive Thrown where
  | jsError (msg : String) : Thrown
  | other : Thrown
  deriving DecidableEq

/-- The valid model types of the route (VALID_MODEL_TYPES). -/
def VALID_MODEL_TYPES : List String :=
  ["openai", "upstage", "openai-pinecone", "upstage-pinecone"]

/-- Error message returned for an invalid query. -/
def MSG_EMPTY_QUERY : String := "질문을 입력해주세요."

/-- Error message returned for an invalid model type. -/
def MSG_BAD_MODEL : String :=
  "지원하지 않는 모델 타입입니다. (" ++ String.intercalate ", " VALID_MODEL_TYPES ++ ")"

/-- Credential hint for OpenAI-classified errors. -/
def MSG_OPENAI_KEY : String := "OpenAI API 키가 설정되지 않았습니다."

/-- Credential hint for Upstage-classified errors. -/
def MSG_UPSTAGE_KEY : String := "Upstage API 키가 설정되지 않았습니다."

/-- Credential hint for Pinecone-classified errors. -/
def MSG_PINECONE_KEY : String := "Pinecone API 키 또는 인덱스 설정을 확인해주세요."

/-- Generic failure message. -/
def MSG_GENERIC : String := "답변 생성 중 오류가 발생했습니다."

/-- Model of the JavaScript expression `s.trim()`: drop whitespace from
both ends (written over the character list so it is fully computable). -/
def jsTrim (s : String) : String :=
  String.mk
    (((s.toList.dropWhile Char.isWhitespace).reverse.dropWhile
       Char.isWhitespace).reverse)

/-- The query guard of the handler:
`!query || typeof query !== "string" || query.trim() === ""`. -/
def queryRejected : Option Json → Bool
  | none => true
  | some j =>
    !(jsTruthy j) ||
      (match j with
       | .str s => decide (jsTrim s = "")
       | _ => true)

/-- The destructuring default `const { modelType = "openai" } = body`. -/
def effectiveModelType : Option Json → Json
  | none => .str "openai"
  | some j => j

/-- The model-type guard: `!VALID_MODEL_TYPES.includes(modelType)` applied
to the destructured (defaulted) value. -/
def modelTypeRejected (mt : Option Json) : Bool :=
  match effectiveModelType mt with
  | .str s => !(VALID_MODEL_TYPES.contains s)
  | _ => true

/-- The catch-block classification of a thrown value (route.ts lines
181-210): substring checks on the message of an Error instance, in order,
otherwise the generic message. -/
def classifyCatch : Thrown → String
  | .other => MSG_GENERIC
  | .jsError msg =>
    if jsIncludes msg "API key" || jsIncludes msg "OpenAI" then MSG_OPENAI_KEY
    else if jsIncludes msg "Upstage" || jsIncludes msg "UPSTAGE" then MSG_UPSTAGE_KEY
    else if jsIncludes msg "Pinecone" || jsIncludes msg "PINECONE" then MSG_PINECONE_KEY
    else MSG_GENERIC

/-- Embedding of the POST handler (route.ts lines 144-212).  `outcome`
stands for the result of the RAG pipeline call: `Except.ok` with answer and
sources, or `Except.error` with the thrown value; it is consulted only when
both validations pass. -/
def POST (body : ChatBody) (outcome : Except Thrown (String × List String)) :
    HttpResp :=
  if queryRejected body.query then ⟨400, .err MSG_EMPTY_QUERY⟩
  else if modelTypeRejected body.modelType then ⟨400, .err MSG_BAD_MODEL⟩
  else
    match outcome with
    | .ok (answer, sources) => ⟨200, .success answer sources⟩
    | .error t => ⟨500, .err (classifyCatch t)⟩

/-- The spec-side reading of an invalid query field: missing, not a string,
or blank after trimming. -/
def specQueryInvalid (q : Option Json) : Prop :=
  ¬ ∃ s, q = some (.str s) ∧ jsTrim s ≠ ""

/-- The spec-side reading of an invalid selector: present but not one of
the recognized enumerated values. -/
def specSelectorInvalid (mt : Option Json) : Prop :=
  ∃ j, mt = some j ∧ ¬ ∃ s, j = .str s ∧ s ∈ VALID_MODEL_TYPES

/-! ## UpstageEmbeddings (models the custom class in src/app/page.tsx
lines 99-139) -/

/-- One HTTP request issued to the Upstage embeddings endpoint: the model
name and the single input text of the JSON body. -/
structure UpstageRequest where
  model : String
  input : String
  deriving DecidableEq

/-- The response the fetch oracle yields for a request: HTTP status, the
response text, and the parsed embedding `data.data[0].embedding` (consulted
only on success). -/
structure FetchResponse where
  status : Nat
  bodyText : String
  embedding : List ℚ

/-- The `response.ok` property of the fetch API: status in the range
200-299. -/
def responseOk (r : FetchResponse) : Bool :=
  200 ≤ r.status && r.status ≤ 299

/-- Embedding of UpstageEmbeddings.embedQuery: issue one fetch with the
single text as input; on a non-2xx response throw an Error whose message
carries the status and the response body; otherwise return the embedding.
The second component is the list of requests issued (always exactly one).
-/
def embedQuery (fetchO : UpstageRequest → FetchResponse) (model text : String) :
    Except String (List ℚ) × List UpstageRequest :=
  let req : UpstageRequest := ⟨model, text⟩
  let resp := fetchO req
  if responseOk resp then (.ok resp.embedding, [req])
  else (.error ("Upstage API 오류: " ++ toString resp.status ++ " - " ++ resp.bodyText), [req])

/-- Embedding of UpstageEmbeddings.embedDocuments: a sequential loop that
calls embedQuery once per text, pushing each result; a thrown error aborts
the loop and propagates.  The second component is the concatenated request
trace. -/
def embedDocuments (fetchO : UpstageRequest → FetchResponse) (model : String) :
    List String → Except String (List (List ℚ)) × List UpstageRequest
  | [] => (.ok [], [])
  | t :: ts =>
    let q := embedQuery fetchO model t
    match q.1 with
    | .error e => (.error e, q.2)
    | .ok v =>
      let rest := embedDocuments fetchO model ts
      match rest.1 with
      | .error e => (.error e, q.2 ++ rest.2)
      | .ok vs => (.ok (v :: vs), q.2 ++ rest.2)

/-! ## Per-provider memoization of the in-memory vector store (models
src/app/page.tsx lines 145-312) -/

/-- The embedding providers of the multi-provider revision. -/
inductive EmbeddingProvider where
  | openai : EmbeddingProvider
  | upstage : EmbeddingProvider
  deriving DecidableEq

/-- The four model types accepted by the route. -/
inductive ModelType where
  | openai : ModelType
  | upstage : ModelType
  | openaiPinecone : ModelType
  | upstagePinecone : ModelType
  deriving DecidableEq

/-- The vector store backends. -/
inductive VectorStoreType where
  | memory : VectorStoreType
  | pinecone : VectorStoreType
  deriving DecidableEq

/-- Embedding of parseModelType: a model type containing "pinecone" maps to
the pinecone backend with the "-pinecone" suffix stripped, any other model
type to the memory backend. -/
def parseModelType : ModelType → EmbeddingProvider × VectorStoreType
  | .openai => (.openai, .memory)
  | .upstage => (.upstage, .memory)
  | .openaiPinecone => (.openai, .pinecone)
  | .upstagePinecone => (.upstage, .pinecone)

/-- The module-level mutable state of src/app/page.tsx: the per-provider
memory stores and the per-provider initialized flags.  `Index` abstracts
the MemoryVectorStore value. -/
structure RagMemState (Index : Type) where
  memoryStores : EmbeddingProvider → Option Index
  isMemoryInitialized : EmbeddingProvider → Bool

/-- Embedding of initializeMemoryStore (page.tsx lines 237-271) as run to
completion without interleaving: if the flag is set and the store is
present, return the cached store unchanged; otherwise build (the `build`
oracle stands for load, split, embed and store) and record store and flag.
The final component counts the builds performed (0 or 1). -/
def initMemoryStore {Index : Type} (build : EmbeddingProvider → Index)
    (p : EmbeddingProvider) (s : RagMemState Index) :
    Index × RagMemState Index × Nat :=
  if h : s.isMemoryInitialized p = true ∧ (s.memoryStores p).isSome then
    ((s.memoryStores p).get h.2, s, 0)
  else
    let idx := build p
    (idx,
      ⟨fun q => if q = p then some idx else s.memoryStores q,
       fun q => if q = p then true else s.isMemoryInitialized q⟩,
      1)

/-- Embedding of the state effect of getVectorStore (page.tsx lines
303-312): the memory backends go through initMemoryStore; the pinecone
backends connect to the external store and leave the memory state alone. -/
def getVectorStoreState {Index : Type} (build : EmbeddingProvider → Index)
    (mt : ModelType) (s : RagMemState Index) :
    Option Index × RagMemState Index × Nat :=
  match parseModelType mt with
  | (e, .memory) =>
    let r := initMemoryStore build e s
    (some r.1, r.2.1, r.2.2)
  | (_, .pinecone) => (none, s, 0)

/-- One sequential operation against the module state: an explicit
warm-up of one provider, or an ask call for one model type. -/
inductive RagOp where
  | init (p : EmbeddingProvider) : RagOp
  | ask (mt : ModelType) : RagOp

/-- The state transition of one sequential operation. -/
def runOp {Index : Type} (build : EmbeddingProvider → Index) :
    RagOp → RagMemState Index → RagMemState Index
  | .init p, s => (initMemoryStore build p s).2.1
  | .ask mt, s => (getVectorStoreState build mt s).2.1

/-- Run a sequence of operations left to right. -/
def runOps {Index : Type} (build : EmbeddingProvider → Index)
    (ops : List RagOp) (s : RagMemState Index) : RagMemState Index :=
  ops.foldl (fun st op => runOp build op st) s

/-- A key is ready with a given index: the flag is set and the store holds
that index. -/
def Ready {Index : Type} (s : RagMemState Index) (p : EmbeddingProvider)
    (idx : Index) : Prop :=
  s.isMemoryInitialized p = true ∧ s.memoryStores p = some idx

/-! ## Interleaving model of two concurrent first calls (models the async
structure of initializeMemoryStore, page.tsx lines 237-271) -/

/-- The program counter of one in-flight initializeMemoryStore call.  The
function body has an await-free prefix that reads the flag and the store
(lines 240-243), then awaited work (createDocuments, fromDocuments, lines
257-262), then an await-free suffix that assigns the store and the flag
(lines 262-267).  `atCheck` is before the prefix, `building` is between
the check and the commit, `finished` carries the returned store. -/
inductive TaskPC (Index : Type) where
  | atCheck : TaskPC Index
  | building : TaskPC Index
  | finished (r : Index) : TaskPC Index
  deriving DecidableEq

/-- The shared state of two concurrent initializeMemoryStore calls for the
same (uninitialized) provider key: the module store and flag for that key,
a counter of completed builds, and both task counters. -/
structure ConcState (Index : Type) where
  store : Option Index
  flag : Bool
  builds : Nat
  pcA : TaskPC Index
  pcB : TaskPC Index
  deriving DecidableEq

/-- One atomic segment of one task.  At the check: if the flag is set and
the store is present the call returns the cached store, otherwise it
proceeds to build.  At the commit: the built index is assigned, the flag
set, and the call returns it. -/
def stepTask {Index : Type} (built : Index) (pc : TaskPC Index)
    (store : Option Index) (flag : Bool) (builds : Nat) :
    TaskPC Index × Option Index × Bool × Nat :=
  match pc with
  | .finished r => (.finished r, store, flag, builds)
  | .atCheck =>
    match flag, store with
    | true, some idx => (.finished idx, store, flag, builds)
    | _, _ => (.building, store, flag, builds)
  | .building => (.finished built, some built, true, builds + 1)

/-- Run one atomic segment of the chosen task (`true` steps the first
call, `false` the second). -/
def stepConc {Index : Type} (built : Index) (s : ConcState Index)
    (who : Bool) : ConcState Index :=
  if who then
    let r := stepTask built s.pcA s.store s.flag s.builds
    ⟨r.2.1, r.2.2.1, r.2.2.2, r.1, s.pcB⟩
  else
    let r := stepTask built s.pcB s.store s.flag s.builds
    ⟨r.2.1, r.2.2.1, r.2.2.2, s.pcA, r.1⟩

/-- Run a schedule of atomic segments. -/
def runConc {Index : Type} (built : Index) (sched : List Bool)
    (s : ConcState Index) : ConcState Index :=
  sched.foldl (stepConc built) s

/-- The initial state of two simultaneous first-time calls on a fresh key.
-/
def initialConc (Index : Type) : ConcState Index :=
  ⟨none, false, 0, .atCheck, .atCheck⟩

/-! ## Chunker (spec section 4.1) -/

/-- Modelled from the spec: the Chunker contract of section 4.1 (the
RecursiveCharacterTextSplitter configured in page.tsx lines 253-256 is
library code not in this repository).  Fuel-driven sliding window: a piece
of at most `size` elements, each later piece starting `size - overlap`
elements after the previous one so that consecutive pieces share the
configured overlap, until the remainder fits in one piece.  The fuel is
always sufficient when it is at least the input length plus one. -/
def splitAux {α : Type} (size stride : Nat) : Nat → List α → List (List α)
  | 0, _ => []
  | fuel + 1, l =>
    if l.length ≤ size then [l]
    else l.take size :: splitAux size stride fuel (l.drop stride)

/-- Modelled from the spec: `split(text, chunkSize, chunkOverlap)` of
section 4.1; empty input yields an empty sequence. -/
def chunkerSplit {α : Type} (size ov : Nat) (l : List α) : List (List α) :=
  if l.length = 0 then [] else splitAux size (size - ov) l.length l

/-! ## Vector index search (spec section 4.3) -/

/-- Modelled from the spec: a stored Embedded Chunk of the Vector Index,
a (vector, text, metadata) triple (section 3); the MemoryVectorStore that
realizes it is library code not in this repository. -/
structure EmbeddedChunk where
  vector : List ℚ
  text : String
  metadata : List (String × String)
  deriving DecidableEq

/-- Dot-product similarity on rational vectors (the spec allows
cosine/dot similarity; the score function is a parameter of search below,
this is the concrete instance used in witnesses). -/
def dotSim (v w : List ℚ) : ℚ :=
  ((v.zipWith (fun a b => a * b)) w).sum

/-- Comparison used to rank scored entries: higher similarity first, and
on equal similarity the smaller insertion position first. -/
def rankLE (sim : List ℚ → List ℚ → ℚ) (q : List ℚ)
    (a b : Nat × EmbeddedChunk) : Bool :=
  decide (sim q b.2.vector < sim q a.2.vector) ||
    (decide (sim q a.2.vector = sim q b.2.vector) && decide (a.1 ≤ b.1))

/-- Modelled from the spec: `search(index, q, k)` of section 4.3, keeping
the insertion position of every entry: score every stored vector against
the query, order by descending similarity with ties broken by insertion
order, and keep the first `k`. -/
def searchRanked (sim : List ℚ → List ℚ → ℚ) (index : List EmbeddedChunk)
    (q : List ℚ) (k : Nat) : List (Nat × EmbeddedChunk) :=
  ((index.enum).mergeSort (rankLE sim q)).take k

/-- Modelled from the spec: the Query Result of `search(index, q, k)`, the
ranked entries without their insertion positions. -/
def search (sim : List ℚ → List ℚ → ℚ) (index : List EmbeddedChunk)
    (q : List ℚ) (k : Nat) : List EmbeddedChunk :=
  (searchRanked sim index q k).map Prod.snd

/-- Weight of a task counter: 1 while the call is still pending, 0 once it
returned. -/
def pcWeight {Index : Type} : TaskPC Index → Nat
  | .finished _ => 0
  | _ => 1

/-- Invariant of the two-task interleaving: the shared store only ever
holds the built index, a set flag means the store is filled, a filled
store means at least one build happened, every returned call returned the
built index, and the build counter plus the pending calls never exceeds
the number of calls. -/
def concInv {Index : Type} (built : Index) (s : ConcState Index) : Prop :=
  (s.store = none ∨ s.store = some built) ∧
  (s.flag = true → s.store = some built) ∧
  (s.store.isSome = true → 1 ≤ s.builds) ∧
  (∀ r, s.pcA = TaskPC.finished r → r = built) ∧
  (∀ r, s.pcB = TaskPC.finished r → r = built) ∧
  s.builds + pcWeight s.pcA + pcWeight s.pcB ≤ 2 ∧
  (((∃ r, s.pcA = TaskPC.finished r) ∨ (∃ r, s.pcB = TaskPC.finished r)) →
    1 ≤ s.builds)

/-! ## Theorems -/

/-- Claim C1: for every query string and provider oracles, askQuestion
performs exactly the specified pipeline — one retrieval call with k = 3,
context built by joining the retrieved texts with a double newline in
ranked order, one generation call on the fixed Korean template instantiated
with that context and the question, the generated text returned as the
answer, and sources that are the 100-character prefixes of the retrieved
texts followed by "...", in retrieval order. -/
theorem askQuestion_pipeline_spec (searchO : String → Nat → List Doc)
    (invokeO : String → MessageContent) (query : String) :
    (askQuestion searchO invokeO query).2 =
      [TraceEvent.searchCall query 3,
       TraceEvent.generateCall (promptTemplate
         (String.intercalate "\n\n" ((searchO query 3).map Doc.pageContent))
         query)] ∧
    (askQuestion searchO invokeO query).1.sources =
      (searchO query 3).map (fun d => d.pageContent.take 100 ++ "...") ∧
    (∀ t, invokeO (promptTemplate
        (String.intercalate "\n\n" ((searchO query 3).map Doc.pageContent))
        query) = MessageContent.text t →
      (askQuestion searchO invokeO query).1.answer = t) := by
  refine ⟨rfl, rfl, ?_⟩
  intro t h
  simp [askQuestion, contentToAnswer, h]

/-- Witness for claim C1 at a concrete store and model. -/
theorem askQuestion_pipeline_spec_witness :
    (askQuestion (fun _ _ => [⟨"소득세법 제1조", []⟩])
      (fun _ => MessageContent.text "답변입니다") "질문").1.answer = "답변입니다" :=
  (askQuestion_pipeline_spec (fun _ _ => [⟨"소득세법 제1조", []⟩])
    (fun _ => MessageContent.text "답변입니다") "질문").2.2 "답변입니다" rfl

/-- Claim C10: when the generation response content is not a plain string,
askQuestion still returns an answer, namely the JSON serialization of the
content, so the answer field is a string for every successful generation
call. -/
theorem askQuestion_nonstring_content (searchO : String → Nat → List Doc)
    (invokeO : String → MessageContent) (query : String) (parts : List Json)
    (h : invokeO (promptTemplate
        (String.intercalate "\n\n" ((searchO query 3).map Doc.pageContent))
        query) = MessageContent.complex parts) :
    (askQuestion searchO invokeO query).1.answer =
      Json.stringify (Json.arr parts) := by
  simp [askQuestion, contentToAnswer, h]

/-- Witness for claim C10 at a concrete structured response. -/
theorem askQuestion_nonstring_content_witness :
    (askQuestion (fun _ _ => [])
      (fun _ => MessageContent.complex [Json.obj [("type", Json.str "text")]])
      "질문").1.answer =
      Json.stringify (Json.arr [Json.obj [("type", Json.str "text")]]) :=
  askQuestion_nonstring_content (fun _ _ => [])
    (fun _ => MessageContent.complex [Json.obj [("type", Json.str "text")]])
    "질문" [Json.obj [("type", Json.str "text")]] rfl

/-- The query guard of the handler agrees with the spec reading: rejected
exactly when the field is missing, not a string, or blank after trimming. -/
theorem queryRejected_iff (q : Option Json) :
    queryRejected q = true ↔ specQueryInvalid q := by
  cases q with
  | none => simp [queryRejected, specQueryInvalid]
  | some j =>
    cases j with
    | str s =>
      have hblank : s = "" → jsTrim s = "" := by intro h; subst h; decide
      simp only [queryRejected, specQueryInvalid, jsTruthy]
      constructor
      · intro h
        rcases Bool.or_eq_true_iff.mp h with h1 | h1
        · have : s = "" := by simpa using h1
          intro hc
          rcases hc with ⟨s1, he, hne⟩
          cases he
          exact hne (hblank this)
        · have : jsTrim s = "" := by simpa using h1
          intro hc
          rcases hc with ⟨s1, he, hne⟩
          cases he
          exact hne this
      · intro h
        have : jsTrim s = "" := by
          by_contra hne
          exact h ⟨s, rfl, hne⟩
        simp [this]
    | null => simp [queryRejected, specQueryInvalid, jsTruthy]
    | bool b => simp [queryRejected, specQueryInvalid, jsTruthy]
    | num n => simp [queryRejected, specQueryInvalid, jsTruthy]
    | arr xs => simp [queryRejected, specQueryInvalid, jsTruthy]
    | obj fs => simp [queryRejected, specQueryInvalid, jsTruthy]

/-- The selector guard of the handler agrees with the spec reading:
rejected exactly when the field is present and is not one of the recognized
enumerated values. -/
theorem modelTypeRejected_iff (mt : Option Json) :
    modelTypeRejected mt = true ↔ specSelectorInvalid mt := by
  cases mt with
  | none =>
    constructor
    · intro h; exact absurd h (by decide)
    · rintro ⟨j, hj, _⟩; cases hj
  | some j =>
    cases j with
    | str s =>
      have hc : VALID_MODEL_TYPES.contains s = decide (s ∈ VALID_MODEL_TYPES) := by
        simp [List.contains]
      simp only [modelTypeRejected, effectiveModelType, specSelectorInvalid, hc]
      constructor
      · intro h
        have hmem : s ∉ VALID_MODEL_TYPES := by simpa using h
        refine ⟨Json.str s, rfl, ?_⟩
        rintro ⟨s1, he, hmem1⟩
        cases he
        exact hmem hmem1
      · rintro ⟨j1, hj, hno⟩
        cases hj
        have hmem : s ∉ VALID_MODEL_TYPES := fun hm => hno ⟨s, rfl, hm⟩
        simpa using hmem
    | null => simp [modelTypeRejected, effectiveModelType, specSelectorInvalid]
    | bool b => simp [modelTypeRejected, effectiveModelType, specSelectorInvalid]
    | num n => simp [modelTypeRejected, effectiveModelType, specSelectorInvalid]
    | arr xs => simp [modelTypeRejected, effectiveModelType, specSelectorInvalid]
    | obj fs => simp [modelTypeRejected, effectiveModelType, specSelectorInvalid]

/-- Claim C2: the POST handler returns 400 exactly when the query field is
missing, not a string, or blank after trimming, or the selector field is
present but not one of the recognized values; an absent selector defaults
to "openai" and is not rejected. -/
theorem POST_validation_spec (body : ChatBody)
    (outcome : Except Thrown (String × List String)) :
    ((POST body outcome).status = 400 ↔
      specQueryInvalid body.query ∨ specSelectorInvalid body.modelType) ∧
    (body.modelType = none →
      effectiveModelType body.modelType = Json.str "openai" ∧
      (¬ specQueryInvalid body.query → (POST body outcome).status ≠ 400)) := by
  have hq := queryRejected_iff body.query
  have hm := modelTypeRejected_iff body.modelType
  have hmain : (POST body outcome).status = 400 ↔
      specQueryInvalid body.query ∨ specSelectorInvalid body.modelType := by
    by_cases h1 : queryRejected body.query = true
    · have : (POST body outcome).status = 400 := by simp [POST, h1]
      exact iff_of_true this (Or.inl (hq.mp h1))
    · by_cases h2 : modelTypeRejected body.modelType = true
      · have : (POST body outcome).status = 400 := by simp [POST, h1, h2]
        exact iff_of_true this (Or.inr (hm.mp h2))
      · have hnq : ¬ specQueryInvalid body.query := fun hc => h1 (hq.mpr hc)
        have hnm : ¬ specSelectorInvalid body.modelType := fun hc => h2 (hm.mpr hc)
        have : (POST body outcome).status ≠ 400 := by
          simp only [POST, h1, if_false, h2]
          cases outcome with
          | ok v => cases v with | mk a s => simp
          | error t => simp
        exact iff_of_false this (by rintro (hc | hc) <;> [exact hnq hc; exact hnm hc])
  refine ⟨hmain, ?_⟩
  intro hnone
  refine ⟨by rw [hnone]; rfl, ?_⟩
  intro hnq h400
  rcases hmain.mp h400 with hc | hc
  · exact hnq hc
  · rcases hc with ⟨j, hj, _⟩
    rw [hnone] at hj
    cases hj

/-- Witness for claim C2 at a concrete body: a valid query with an absent
selector is not rejected. -/
theorem POST_validation_spec_witness :
    ¬ specQueryInvalid (some (Json.str "소득세")) ∧
    (POST ⟨some (Json.str "소득세"), none⟩
        (Except.ok ("답", []))).status ≠ 400 :=
  have hnq : ¬ specQueryInvalid (some (Json.str "소득세")) := by
    intro hc
    exact hc ⟨"소득세", rfl, by decide⟩
  ⟨hnq,
    ((POST_validation_spec ⟨some (Json.str "소득세"), none⟩
      (Except.ok ("답", []))).2 rfl).2 hnq⟩

/-- Counterexample to claim C3: the message "UPSTAGE" contains none of the
four substrings named by the claim ("API key", "OpenAI", "Upstage",
"Pinecone"), so the claim requires the generic message, yet the handler
answers with the Upstage credential hint, which differs from the generic
message. -/
theorem POST_uppercase_hint_counterexample :
    jsIncludes "UPSTAGE" "API key" = false ∧
    jsIncludes "UPSTAGE" "OpenAI" = false ∧
    jsIncludes "UPSTAGE" "Upstage" = false ∧
    jsIncludes "UPSTAGE" "Pinecone" = false ∧
    POST ⟨some (Json.str "질문"), none⟩
        (Except.error (Thrown.jsError "UPSTAGE")) =
      ⟨500, RespBody.err MSG_UPSTAGE_KEY⟩ ∧
    MSG_UPSTAGE_KEY ≠ MSG_GENERIC := by
  refine ⟨rfl, rfl, rfl, rfl, rfl, by decide⟩

/-- Claim C3 as amended: after validation passes, a thrown Error yields
HTTP 500, with a provider hint exactly when the message contains one of
"API key", "OpenAI", "Upstage", "UPSTAGE", "Pinecone", "PINECONE" (first
matching group wins, substring match on the message only) and the generic
message otherwise. -/
theorem POST_error_classification (body : ChatBody)
    (outcome : Except Thrown (String × List String)) (msg : String)
    (hqv : queryRejected body.query = false)
    (hmv : modelTypeRejected body.modelType = false)
    (ho : outcome = Except.error (Thrown.jsError msg)) :
    (POST body outcome).status = 500 ∧
    ((POST body outcome).body = RespBody.err MSG_GENERIC ↔
      ¬((jsIncludes msg "API key" || jsIncludes msg "OpenAI"
          || jsIncludes msg "Upstage" || jsIncludes msg "UPSTAGE"
          || jsIncludes msg "Pinecone" || jsIncludes msg "PINECONE") = true)) ∧
    ((jsIncludes msg "API key" || jsIncludes msg "OpenAI") = true →
      (POST body outcome).body = RespBody.err MSG_OPENAI_KEY) ∧
    (¬((jsIncludes msg "API key" || jsIncludes msg "OpenAI") = true) →
      (jsIncludes msg "Upstage" || jsIncludes msg "UPSTAGE") = true →
      (POST body outcome).body = RespBody.err MSG_UPSTAGE_KEY) ∧
    (¬((jsIncludes msg "API key" || jsIncludes msg "OpenAI") = true) →
      ¬((jsIncludes msg "Upstage" || jsIncludes msg "UPSTAGE") = true) →
      (jsIncludes msg "Pinecone" || jsIncludes msg "PINECONE") = true →
      (POST body outcome).body = RespBody.err MSG_PINECONE_KEY) := by
  subst ho
  have hpost : POST body (Except.error (Thrown.jsError msg)) =
      ⟨500, RespBody.err (classifyCatch (Thrown.jsError msg))⟩ := by
    simp [POST, hqv, hmv]
  rw [hpost]
  have hog : MSG_OPENAI_KEY ≠ MSG_GENERIC := by decide
  have hug : MSG_UPSTAGE_KEY ≠ MSG_GENERIC := by decide
  have hpg : MSG_PINECONE_KEY ≠ MSG_GENERIC := by decide
  refine ⟨rfl, ?_, ?_, ?_, ?_⟩ <;>
    (cases hA : jsIncludes msg "API key" <;>
     cases hB : jsIncludes msg "OpenAI" <;>
     cases hC : jsIncludes msg "Upstage" <;>
     cases hD : jsIncludes msg "UPSTAGE" <;>
     cases hE : jsIncludes msg "Pinecone" <;>
     cases hF : jsIncludes msg "PINECONE" <;>
     simp [classifyCatch, hA, hB, hC, hD, hE, hF, hog, hug, hpg])

/-- Witness for the amended claim C3 at a concrete body and message. -/
theorem POST_error_classification_witness :
    (POST ⟨some (Json.str "질문"), none⟩
        (Except.error (Thrown.jsError "PINECONE index missing"))).status = 500 ∧
    (POST ⟨some (Json.str "질문"), none⟩
        (Except.error (Thrown.jsError "PINECONE index missing"))).body =
      RespBody.err MSG_PINECONE_KEY :=
  have h := POST_error_classification ⟨some (Json.str "질문"), none⟩
    (Except.error (Thrown.jsError "PINECONE index missing"))
    "PINECONE index missing" rfl rfl rfl
  ⟨h.1, h.2.2.2.2 (by decide) (by decide) (by decide)⟩

/-- A list is found at the front of itself followed by anything. -/
theorem charsStartsWith_append (p t : List Char) : charsStartsWith p (p ++ t) = true := by
  induction p with
  | nil => rfl
  | cons a s ih => simp [charsStartsWith, ih]

/-- Containment is preserved by prepending further characters. -/
theorem charsContains_append_left (pre rest sub : List Char)
    (h : charsContains sub rest = true) :
    charsContains sub (pre ++ rest) = true := by
  induction pre with
  | nil => simpa using h
  | cons a t ih =>
    show (charsStartsWith sub (a :: (t ++ rest)) || charsContains sub (t ++ rest)) = true
    rw [Bool.or_eq_true]
    exact Or.inr ih

/-- A list contains itself followed by anything. -/
theorem charsContains_self_append (sub t : List Char) :
    charsContains sub (sub ++ t) = true := by
  cases sub with
  | nil => cases t <;> rfl
  | cons a s =>
    show (charsStartsWith (a :: s) ((a :: s) ++ t) || _) = true
    rw [Bool.or_eq_true]
    exact Or.inl (charsStartsWith_append (a :: s) t)

/-- A string whose character data decomposes around the pattern contains
the pattern. -/
theorem jsIncludes_of_data (s sub : String) (x y : List Char)
    (h : s.data = x ++ sub.data ++ y) : jsIncludes s sub = true := by
  unfold jsIncludes
  have hx : s.toList = x ++ (sub.toList ++ y) := by
    simpa [String.toList, List.append_assoc] using h
  rw [hx]
  exact charsContains_append_left x _ _ (charsContains_self_append _ _)

/-- Claim C5: a non-2xx response makes embedQuery fail with the
descriptive error whose message carries the status code and the response
body, and exactly one request is issued (no retry). -/
theorem embedQuery_error_spec (fetchO : UpstageRequest → FetchResponse)
    (model text : String)
    (h : responseOk (fetchO ⟨model, text⟩) = false) :
    (embedQuery fetchO model text).1 =
      Except.error ("Upstage API 오류: " ++ toString (fetchO ⟨model, text⟩).status
        ++ " - " ++ (fetchO ⟨model, text⟩).bodyText) ∧
    jsIncludes ("Upstage API 오류: " ++ toString (fetchO ⟨model, text⟩).status
        ++ " - " ++ (fetchO ⟨model, text⟩).bodyText)
      (toString (fetchO ⟨model, text⟩).status) = true ∧
    jsIncludes ("Upstage API 오류: " ++ toString (fetchO ⟨model, text⟩).status
        ++ " - " ++ (fetchO ⟨model, text⟩).bodyText)
      ((fetchO ⟨model, text⟩).bodyText) = true ∧
    (embedQuery fetchO model text).2 = [⟨model, text⟩] := by
  refine ⟨?_, ?_, ?_, ?_⟩
  · simp [embedQuery, h]
  · exact jsIncludes_of_data _ _ ("Upstage API 오류: ").data
      ((" - ").data ++ ((fetchO ⟨model, text⟩).bodyText).data)
      (by simp [String.data_append, List.append_assoc])
  · exact jsIncludes_of_data _ _
      (("Upstage API 오류: ").data ++ (toString (fetchO ⟨model, text⟩).status).data
        ++ (" - ").data) []
      (by simp [String.data_append, List.append_assoc])
  · simp [embedQuery, h]

/-- Witness for claim C5 at a concrete failing response. -/
theorem embedQuery_error_spec_witness :
    (embedQuery (fun _ => ⟨401, "unauthorized", []⟩) "embedding-query" "질문").1 =
      Except.error ("Upstage API 오류: " ++ toString (401 : Nat) ++ " - " ++ "unauthorized") ∧
    (embedQuery (fun _ => ⟨401, "unauthorized", []⟩) "embedding-query" "질문").2 =
      [⟨"embedding-query", "질문"⟩] :=
  have h := embedQuery_error_spec (fun _ => ⟨401, "unauthorized", []⟩)
    "embedding-query" "질문" rfl
  ⟨h.1, h.2.2.2⟩

/-- Claim C4: embedDocuments is the sequential per-text composition of
embedQuery — its result is the in-order monadic map of embedQuery over the
texts, when every call succeeds the trace is exactly one single-input
request per text in order, and the empty input yields the empty result
with no request at all. -/
theorem embedDocuments_sequential_spec (fetchO : UpstageRequest → FetchResponse)
    (model : String) (texts : List String) :
    (embedDocuments fetchO model texts).1 =
      texts.mapM (fun t => (embedQuery fetchO model t).1) ∧
    ((∀ t ∈ texts, responseOk (fetchO ⟨model, t⟩) = true) →
      (embedDocuments fetchO model texts).2 =
        texts.map (fun t => (⟨model, t⟩ : UpstageRequest)) ∧
      (embedDocuments fetchO model texts).1 =
        Except.ok (texts.map (fun t => (fetchO ⟨model, t⟩).embedding))) ∧
    embedDocuments fetchO model [] = (Except.ok [], []) := by
  refine ⟨?_, ?_, rfl⟩
  · induction texts with
    | nil => rfl
    | cons t ts ih =>
      rw [List.mapM_cons]
      cases hq : (embedQuery fetchO model t).1 with
      | error e =>
        simp only [embedDocuments, hq]
        rfl
      | ok v =>
        cases hr : (embedDocuments fetchO model ts).1 with
        | error e =>
          simp only [embedDocuments, hq, hr]
          rw [← ih, hr]
          rfl
        | ok vs =>
          simp only [embedDocuments, hq, hr]
          rw [← ih, hr]
          rfl
  · induction texts with
    | nil => intro _; exact ⟨rfl, rfl⟩
    | cons t ts ih =>
      intro hall
      have hok : responseOk (fetchO ⟨model, t⟩) = true :=
        hall t (List.mem_cons_self t ts)
      have hts := ih (fun t1 ht1 => hall t1 (List.mem_cons_of_mem t ht1))
      have hq1 : (embedQuery fetchO model t).1 =
          Except.ok (fetchO ⟨model, t⟩).embedding := by
        simp [embedQuery, hok]
      have hq2 : (embedQuery fetchO model t).2 = [⟨model, t⟩] := by
        simp [embedQuery, hok]
      constructor
      · simp only [embedDocuments, hq1, hts.2, List.map_cons]
        rw [hq2, hts.1]
        rfl
      · simp only [embedDocuments, hq1, hts.2, List.map_cons]

/-- Witness for claim C4 at a concrete oracle with two texts. -/
theorem embedDocuments_sequential_spec_witness :
    (embedDocuments (fun _ => ⟨200, "", [(1 : ℚ), 2]⟩) "embedding-query"
        ["갑", "을"]).2 =
      [⟨"embedding-query", "갑"⟩, ⟨"embedding-query", "을"⟩] :=
  ((embedDocuments_sequential_spec (fun _ => ⟨200, "", [(1 : ℚ), 2]⟩)
    "embedding-query" ["갑", "을"]).2.1 (by intro t ht; rfl)).1

/-- A ready key is served from the cache: the call returns the cached
index, leaves the state untouched, and performs no build. -/
theorem initMemoryStore_cached {Index : Type} (build : EmbeddingProvider → Index)
    (p : EmbeddingProvider) (s : RagMemState Index) (idx : Index)
    (h : Ready s p idx) : initMemoryStore build p s = (idx, s, 0) := by
  rcases h with ⟨hf, hs⟩
  have h2 : (s.memoryStores p).isSome := by rw [hs]; rfl
  unfold initMemoryStore
  rw [dif_pos ⟨hf, h2⟩]
  have : (s.memoryStores p).get h2 = idx := by
    simp [Option.get_of_mem, hs]
  rw [this]

/-- After any completed initMemoryStore call the key is ready with the
returned index. -/
theorem initMemoryStore_ready {Index : Type} (build : EmbeddingProvider → Index)
    (p : EmbeddingProvider) (s : RagMemState Index) :
    Ready (initMemoryStore build p s).2.1 p (initMemoryStore build p s).1 := by
  by_cases h : s.isMemoryInitialized p = true ∧ (s.memoryStores p).isSome
  · unfold initMemoryStore
    rw [dif_pos h]
    exact ⟨h.1, (Option.some_get h.2).symm⟩
  · unfold initMemoryStore
    rw [dif_neg h]
    exact ⟨by simp [Ready], by simp [Ready]⟩

/-- Every sequential operation preserves readiness of a key: no operation
overwrites a stored index or clears an initialized flag. -/
theorem runOp_preserves_ready {Index : Type} (build : EmbeddingProvider → Index)
    (op : RagOp) (p : EmbeddingProvider) (idx : Index) (s : RagMemState Index)
    (h : Ready s p idx) : Ready (runOp build op s) p idx := by
  have key : ∀ q, Ready ((initMemoryStore build q s).2.1) p idx := by
    intro q
    by_cases hq : q = p
    · subst hq
      rw [initMemoryStore_cached build q s idx h]
      exact h
    · by_cases hc : s.isMemoryInitialized q = true ∧ (s.memoryStores q).isSome
      · unfold initMemoryStore
        rw [dif_pos hc]
        exact h
      · unfold initMemoryStore
        rw [dif_neg hc]
        refine ⟨?_, ?_⟩
        · show (if p = q then true else s.isMemoryInitialized p) = true
          rw [if_neg (fun hh => hq hh.symm)]
          exact h.1
        · show (if p = q then some (build q) else s.memoryStores p) = some idx
          rw [if_neg (fun hh => hq hh.symm)]
          exact h.2
  cases op with
  | init q => exact key q
  | ask mt =>
    show Ready (getVectorStoreState build mt s).2.1 p idx
    cases hpm : parseModelType mt with
    | mk e vst =>
      cases vst with
      | memory =>
        simp only [getVectorStoreState, hpm]
        exact key e
      | pinecone =>
        simp only [getVectorStoreState, hpm]
        exact h

/-- Readiness of a key survives any sequence of later operations. -/
theorem runOps_preserves_ready {Index : Type} (build : EmbeddingProvider → Index)
    (ops : List RagOp) (p : EmbeddingProvider) (idx : Index)
    (s : RagMemState Index) (h : Ready s p idx) :
    Ready (runOps build ops s) p idx := by
  induction ops generalizing s with
  | nil => exact h
  | cons op rest ih =>
    show Ready (runOps build rest (runOp build op s)) p idx
    exact ih _ (runOp_preserves_ready build op p idx s h)

/-- Claim C6: the in-memory index is built lazily and cached per provider
key — a completed call leaves the key ready; once a key is ready, no later
sequence of operations overwrites its flag or its stored index; and any
later warm-up or memory-backed ask call for that key returns the cached
index with the state unchanged and zero builds. -/
theorem memo_init_once_spec {Index : Type}
    (build : EmbeddingProvider → Index) (p : EmbeddingProvider)
    (s : RagMemState Index) (idx : Index) (ops : List RagOp) (mt : ModelType) :
    Ready (initMemoryStore build p s).2.1 p (initMemoryStore build p s).1 ∧
    (Ready s p idx → Ready (runOps build ops s) p idx) ∧
    (Ready s p idx → initMemoryStore build p s = (idx, s, 0)) ∧
    (Ready s p idx → parseModelType mt = (p, VectorStoreType.memory) →
      getVectorStoreState build mt s = (some idx, s, 0)) := by
  refine ⟨initMemoryStore_ready build p s,
    fun h => runOps_preserves_ready build ops p idx s h,
    fun h => initMemoryStore_cached build p s idx h, ?_⟩
  intro h hpm
  show getVectorStoreState build mt s = (some idx, s, 0)
  simp only [getVectorStoreState, hpm]
  rw [initMemoryStore_cached build p s idx h]

/-- Witness for claim C6 at a concrete ready state. -/
theorem memo_init_once_spec_witness :
    initMemoryStore (fun _ => (7 : Nat)) EmbeddingProvider.openai
        ⟨fun _ => some 7, fun _ => true⟩ =
      (7, ⟨fun _ => some 7, fun _ => true⟩, 0) ∧
    getVectorStoreState (fun _ => (7 : Nat)) ModelType.openai
        ⟨fun _ => some 7, fun _ => true⟩ =
      (some 7, ⟨fun _ => some 7, fun _ => true⟩, 0) :=
  have h := memo_init_once_spec (fun _ => (7 : Nat))
    EmbeddingProvider.openai ⟨fun _ => some 7, fun _ => true⟩ 7 []
    ModelType.openai
  ⟨h.2.2.1 ⟨rfl, rfl⟩, h.2.2.2 ⟨rfl, rfl⟩ rfl⟩

/-- Counterexample to claim C7: the interleaving in which both first-time
calls pass the initialized check before either completes performs two
builds, not exactly one, because the code has no single-flight guard. -/
theorem conc_double_build_counterexample :
    (runConc (7 : Nat) [true, false, true, false] (initialConc Nat)).pcA =
      TaskPC.finished 7 ∧
    (runConc (7 : Nat) [true, false, true, false] (initialConc Nat)).pcB =
      TaskPC.finished 7 ∧
    (runConc (7 : Nat) [true, false, true, false] (initialConc Nat)).builds = 2 :=
  ⟨rfl, rfl, rfl⟩

/-- One atomic segment preserves the interleaving invariant. -/
theorem stepConc_preserves_inv {Index : Type} (built : Index)
    (s : ConcState Index) (who : Bool) (h : concInv built s) :
    concInv built (stepConc built s who) := by
  obtain ⟨st, fl, bd, pa, pb⟩ := s
  obtain ⟨h1, h2, h3, h4, h5, h6, h7⟩ := h
  cases who with
  | true =>
    cases pa with
    | finished r => exact ⟨h1, h2, h3, h4, h5, h6, h7⟩
    | building =>
      refine ⟨Or.inr rfl, fun _ => rfl, fun _ => Nat.le_add_left 1 bd,
        fun r hr => by injection hr with hh; exact hh.symm, h5, ?_,
        fun _ => Nat.le_add_left 1 bd⟩
      show bd + 1 + pcWeight (TaskPC.finished built) + pcWeight pb ≤ 2
      simp only [pcWeight] at h6 ⊢
      omega
    | atCheck =>
      cases fl with
      | true =>
        cases st with
        | some v =>
          have hv : v = built := Option.some.inj (h2 rfl)
          refine ⟨h1, h2, h3, ?_, h5, ?_, fun _ => h3 rfl⟩
          · intro r hr
            injection hr with hh
            rw [← hh, hv]
          · show bd + pcWeight (TaskPC.finished v) + pcWeight pb ≤ 2
            simp only [pcWeight] at h6 ⊢
            omega
        | none =>
          refine ⟨h1, h2, h3, fun r hr => TaskPC.noConfusion hr, h5, h6, ?_⟩
          rintro (⟨r, hr⟩ | hb)
          · exact TaskPC.noConfusion hr
          · exact h7 (Or.inr hb)
      | false =>
        cases st with
        | some v =>
          refine ⟨h1, h2, h3, fun r hr => TaskPC.noConfusion hr, h5, h6, ?_⟩
          rintro (⟨r, hr⟩ | hb)
          · exact TaskPC.noConfusion hr
          · exact h7 (Or.inr hb)
        | none =>
          refine ⟨h1, h2, h3, fun r hr => TaskPC.noConfusion hr, h5, h6, ?_⟩
          rintro (⟨r, hr⟩ | hb)
          · exact TaskPC.noConfusion hr
          · exact h7 (Or.inr hb)
  | false =>
    cases pb with
    | finished r => exact ⟨h1, h2, h3, h4, h5, h6, h7⟩
    | building =>
      refine ⟨Or.inr rfl, fun _ => rfl, fun _ => Nat.le_add_left 1 bd, h4,
        fun r hr => by injection hr with hh; exact hh.symm, ?_,
        fun _ => Nat.le_add_left 1 bd⟩
      show bd + 1 + pcWeight pa + pcWeight (TaskPC.finished built) ≤ 2
      simp only [pcWeight] at h6 ⊢
      omega
    | atCheck =>
      cases fl with
      | true =>
        cases st with
        | some v =>
          have hv : v = built := Option.some.inj (h2 rfl)
          refine ⟨h1, h2, h3, h4, ?_, ?_, fun _ => h3 rfl⟩
          · intro r hr
            injection hr with hh
            rw [← hh, hv]
          · show bd + pcWeight pa + pcWeight (TaskPC.finished v) ≤ 2
            simp only [pcWeight] at h6 ⊢
            omega
        | none =>
          refine ⟨h1, h2, h3, h4, fun r hr => TaskPC.noConfusion hr, h6, ?_⟩
          rintro (ha | ⟨r, hr⟩)
          · exact h7 (Or.inl ha)
          · exact TaskPC.noConfusion hr
      | false =>
        cases st with
        | some v =>
          refine ⟨h1, h2, h3, h4, fun r hr => TaskPC.noConfusion hr, h6, ?_⟩
          rintro (ha | ⟨r, hr⟩)
          · exact h7 (Or.inl ha)
          · exact TaskPC.noConfusion hr
        | none =>
          refine ⟨h1, h2, h3, h4, fun r hr => TaskPC.noConfusion hr, h6, ?_⟩
          rintro (ha | ⟨r, hr⟩)
          · exact h7 (Or.inl ha)
          · exact TaskPC.noConfusion hr

/-- The interleaving invariant holds after any schedule. -/
theorem runConc_preserves_inv {Index : Type} (built : Index)
    (sched : List Bool) (s : ConcState Index) (h : concInv built s) :
    concInv built (runConc built sched s) := by
  induction sched generalizing s with
  | nil => exact h
  | cons w rest ih =>
    show concInv built (runConc built rest (stepConc built s w))
    exact ih _ (stepConc_preserves_inv built s w h)

/-- Claim C7 as amended: two simultaneous first-time calls for the same
uninitialized key perform at most two builds under every interleaving (two
are possible, one is not guaranteed — there is no single-flight guard),
every call that returns receives the correct built index, and once both
calls have returned at least one build has happened. -/
theorem conc_first_build_race_amended {Index : Type} (built : Index)
    (sched : List Bool) :
    (runConc built sched (initialConc Index)).builds ≤ 2 ∧
    (∀ r, (runConc built sched (initialConc Index)).pcA = TaskPC.finished r →
      r = built) ∧
    (∀ r, (runConc built sched (initialConc Index)).pcB = TaskPC.finished r →
      r = built) ∧
    ((∃ r, (runConc built sched (initialConc Index)).pcA = TaskPC.finished r) →
      (∃ r, (runConc built sched (initialConc Index)).pcB = TaskPC.finished r) →
      1 ≤ (runConc built sched (initialConc Index)).builds) := by
  have h0 : concInv built (initialConc Index) := by
    refine ⟨Or.inl rfl, ?_, ?_, ?_, ?_, ?_, ?_⟩ <;>
      simp [initialConc, pcWeight]
  have hinv := runConc_preserves_inv built sched (initialConc Index) h0
  obtain ⟨h1, h2, h3, h4, h5, h6, h7⟩ := hinv
  exact ⟨by omega, h4, h5, fun ha hb => h7 (Or.inl ha)⟩

/-- Witness for the amended claim C7 at a concrete schedule in which the
first call completes before the second checks, so one build serves both. -/
theorem conc_first_build_race_amended_witness :
    1 ≤ (runConc (3 : Nat) [true, true, false] (initialConc Nat)).builds :=
  (conc_first_build_race_amended (3 : Nat) [true, true, false]).2.2.2
    ⟨3, rfl⟩ ⟨3, rfl⟩

/-- Unfolding of the fuelled splitter for nonzero fuel. -/
theorem splitAux_succ {α : Type} (size stride fuel : Nat) (l : List α)
    (hf : fuel ≠ 0) :
    splitAux size stride fuel l =
      if l.length ≤ size then [l]
      else l.take size :: splitAux size stride (fuel - 1) (l.drop stride) := by
  cases fuel with
  | zero => exact absurd rfl hf
  | succ n => rfl

/-- A long remainder produces one full chunk and recurses. -/
theorem splitAux_step {α : Type} (size stride fuel : Nat) (l : List α)
    (hf : fuel ≠ 0) (hlen : size < l.length) :
    splitAux size stride fuel l =
      l.take size :: splitAux size stride (fuel - 1) (l.drop stride) := by
  rw [splitAux_succ size stride fuel l hf, if_neg (by omega)]

/-- A short remainder is the final chunk. -/
theorem splitAux_last {α : Type} (size stride fuel : Nat) (l : List α)
    (hf : fuel ≠ 0) (hlen : l.length ≤ size) :
    splitAux size stride fuel l = [l] := by
  rw [splitAux_succ size stride fuel l hf, if_pos hlen]

/-- Claim C8: splitting a 10,000-character document with chunkSize 1500
and chunkOverlap 200 yields exactly 8 chunks — the sliding windows at
stride 1300 — and every consecutive pair of chunks shares exactly the
200-character overlap at the boundary. -/
theorem chunker_10000_spec {α : Type} (l : List α) (h : l.length = 10000) :
    (chunkerSplit 1500 200 l).length = 8 ∧
    chunkerSplit 1500 200 l =
      (List.range 8).map (fun i => (l.drop (1300 * i)).take 1500) ∧
    (∀ i, i + 1 < 8 →
      ((l.drop (1300 * i)).take 1500).drop
          (((l.drop (1300 * i)).take 1500).length - 200) =
        ((l.drop (1300 * (i + 1))).take 1500).take 200) := by
  have hchar : chunkerSplit 1500 200 l =
      (List.range 8).map (fun i => (l.drop (1300 * i)).take 1500) := by
    unfold chunkerSplit
    rw [if_neg (by omega), h]
    rw [splitAux_step 1500 1300 10000 l (by decide) (by omega)]
    norm_num
    rw [splitAux_step 1500 1300 9999 (l.drop 1300) (by decide)
      (by rw [List.length_drop, h]; decide)]
    rw [List.drop_drop]
    norm_num
    rw [splitAux_step 1500 1300 9998 (l.drop 2600) (by decide)
      (by rw [List.length_drop, h]; decide)]
    rw [List.drop_drop]
    norm_num
    rw [splitAux_step 1500 1300 9997 (l.drop 3900) (by decide)
      (by rw [List.length_drop, h]; decide)]
    rw [List.drop_drop]
    norm_num
    rw [splitAux_step 1500 1300 9996 (l.drop 5200) (by decide)
      (by rw [List.length_drop, h]; decide)]
    rw [List.drop_drop]
    norm_num
    rw [splitAux_step 1500 1300 9995 (l.drop 6500) (by decide)
      (by rw [List.length_drop, h]; decide)]
    rw [List.drop_drop]
    norm_num
    rw [splitAux_step 1500 1300 9994 (l.drop 7800) (by decide)
      (by rw [List.length_drop, h]; decide)]
    rw [List.drop_drop]
    norm_num
    rw [splitAux_last 1500 1300 9993 (l.drop 9100) (by decide)
      (by rw [List.length_drop, h]; decide)]
    have hlast : (l.drop 9100).take 1500 = l.drop 9100 :=
      List.take_of_length_le (by rw [List.length_drop, h]; decide)
    simp [List.range_succ, hlast]
  refine ⟨by rw [hchar]; simp, hchar, ?_⟩
  intro i hi
  have hlen_i : ((l.drop (1300 * i)).take 1500).length = 1500 := by
    rw [List.length_take, List.length_drop, h]
    omega
  rw [hlen_i]
  rw [List.drop_take, List.drop_drop, List.take_take]
  norm_num [Nat.mul_add]

/-- Witness for claim C8 at a concrete 10,000-element document. -/
theorem chunker_10000_spec_witness :
    (chunkerSplit 1500 200 (List.replicate 10000 (0 : Nat))).length = 8 ∧
    (((List.replicate 10000 (0 : Nat)).drop (1300 * 0)).take 1500).drop
        ((((List.replicate 10000 (0 : Nat)).drop (1300 * 0)).take 1500).length - 200) =
      (((List.replicate 10000 (0 : Nat)).drop (1300 * 1)).take 1500).take 200 :=
  have h := chunker_10000_spec (List.replicate 10000 (0 : Nat))
    (by rw [List.length_replicate])
  ⟨h.1, h.2.2 0 (by decide)⟩

/-- The ranking comparison is transitive. -/
theorem rankLE_trans (sim : List ℚ → List ℚ → ℚ) (q : List ℚ)
    (a b c : Nat × EmbeddedChunk) (hab : rankLE sim q a b = true)
    (hbc : rankLE sim q b c = true) : rankLE sim q a c = true := by
  simp only [rankLE, Bool.or_eq_true, Bool.and_eq_true, decide_eq_true_eq]
    at hab hbc ⊢
  rcases hab with h1 | ⟨h1, h2⟩
  · rcases hbc with h3 | ⟨h3, h4⟩
    · exact Or.inl (lt_trans h3 h1)
    · exact Or.inl (by rw [← h3]; exact h1)
  · rcases hbc with h3 | ⟨h3, h4⟩
    · exact Or.inl (by rw [h1]; exact h3)
    · exact Or.inr ⟨by rw [h1, h3], le_trans h2 h4⟩

/-- The ranking comparison is total. -/
theorem rankLE_total (sim : List ℚ → List ℚ → ℚ) (q : List ℚ)
    (a b : Nat × EmbeddedChunk) :
    (rankLE sim q a b || rankLE sim q b a) = true := by
  simp only [rankLE, Bool.or_eq_true, Bool.and_eq_true, decide_eq_true_eq]
  rcases lt_trichotomy (sim q a.2.vector) (sim q b.2.vector) with h | h | h
  · tauto
  · have h1 := h.symm
    rcases Nat.le_total a.1 b.1 with hn | hn <;> tauto
  · tauto

/-- Claim C9: for every index, similarity function, query and k, search
returns exactly min(k, size of the index) results, sorted by non-increasing
similarity score to the query, with ties broken stably by insertion order
(the ranked form is strictly ordered by score then insertion position, and
every ranked result is the entry stored at its insertion position). -/
theorem search_topk_spec (sim : List ℚ → List ℚ → ℚ)
    (index : List EmbeddedChunk) (q : List ℚ) (k : Nat) :
    (search sim index q k).length = min k index.length ∧
    (search sim index q k).Pairwise
      (fun a b => sim q b.vector ≤ sim q a.vector) ∧
    (searchRanked sim index q k).Pairwise
      (fun a b => sim q b.2.vector < sim q a.2.vector ∨
        (sim q a.2.vector = sim q b.2.vector ∧ a.1 < b.1)) ∧
    (∀ p ∈ searchRanked sim index q k, index[p.1]? = some p.2) ∧
    search sim index q k = (searchRanked sim index q k).map Prod.snd := by
  have hsorted : ((index.enum).mergeSort (rankLE sim q)).Pairwise
      (fun a b => rankLE sim q a b = true) :=
    List.sorted_mergeSort (rankLE_trans sim q) (rankLE_total sim q) index.enum
  have hperm := List.mergeSort_perm index.enum (rankLE sim q)
  have hne0 : (index.enum).Pairwise (fun a b => a.1 ≠ b.1) :=
    List.pairwise_map.mp (List.nodup_enum_map_fst index)
  have hne : ((index.enum).mergeSort (rankLE sim q)).Pairwise
      (fun a b => a.1 ≠ b.1) :=
    (hperm.pairwise_iff (fun h => Ne.symm h)).mpr hne0
  have hcomb := hsorted.and hne
  have htaken : (searchRanked sim index q k).Pairwise
      (fun a b => rankLE sim q a b = true ∧ a.1 ≠ b.1) :=
    List.Pairwise.sublist (List.take_sublist k _) hcomb
  have hstrict : (searchRanked sim index q k).Pairwise
      (fun a b => sim q b.2.vector < sim q a.2.vector ∨
        (sim q a.2.vector = sim q b.2.vector ∧ a.1 < b.1)) := by
    refine htaken.imp ?_
    rintro a b ⟨hle, hab⟩
    simp only [rankLE, Bool.or_eq_true, Bool.and_eq_true, decide_eq_true_eq]
      at hle
    rcases hle with h1 | ⟨h1, h2⟩
    · exact Or.inl h1
    · exact Or.inr ⟨h1, lt_of_le_of_ne h2 hab⟩
  refine ⟨?_, ?_, hstrict, ?_, rfl⟩
  · simp [search, searchRanked]
  · refine List.pairwise_map.mpr (hstrict.imp ?_)
    rintro a b (h1 | ⟨h1, _⟩)
    · exact le_of_lt h1
    · exact le_of_eq h1.symm
  · intro p hp
    have hmem : p ∈ (index.enum).mergeSort (rankLE sim q) :=
      (List.take_sublist k _).subset hp
    have henum : p ∈ index.enum := List.mem_mergeSort.mp hmem
    exact List.mem_enum_iff_getElem?.mp henum

/-- Witness for claim C9 at a concrete one-entry index matching the query
exactly. -/
theorem search_topk_spec_witness :
    (search dotSim [⟨[0, 1], "을", []⟩] [0, 1] 1).length = min 1 1 ∧
    ([⟨[0, 1], "을", []⟩] : List EmbeddedChunk)[(0 : Nat)]? =
      some ⟨[0, 1], "을", []⟩ :=
  have h := search_topk_spec dotSim [⟨[0, 1], "을", []⟩] [0, 1] 1
  ⟨h.1, h.2.2.2.1 (0, ⟨[0, 1], "을", []⟩) (by
    show (0, (⟨[0, 1], "을", []⟩ : EmbeddedChunk)) ∈
      ((([⟨[0, 1], "을", []⟩] : List EmbeddedChunk).enum).mergeSort
        (rankLE dotSim [0, 1])).take 1
    rw [show ([⟨[0, 1], "을", []⟩] : List EmbeddedChunk).enum =
      [(0, ⟨[0, 1], "을", []⟩)] from rfl]
    rw [List.mergeSort_singleton]
    simp)⟩
